import Mathlib

/-!
Shallow embedding of the Rocketman position risk-management core:

* `hummingbot/strategy_v2/rocketman_v2/models/position_state.py`
* `hummingbot/strategy_v2/rocketman_v2/utils/backtesting_utils.py`
* `hummingbot/strategy_v2/rocketman_v2/backtesting/backtesting_executor.py`
* `hummingbot/strategy_v2/rocketman_v2/configs/rocketman_config.py`
* `hummingbot/strategy/rocketman/rocketman_controller.py` (indicator engine)

Python `Decimal` values are modelled as exact rationals `ℚ`; a Decimal
division by zero raises `DivisionByZero` in Python, which is modelled by
the `Except String` monad.  Pandas float series (indicator engine) are
modelled separately further below.
-/

namespace Rocketman

/-- The `TradeType` enum from `hummingbot.core.data_type.common`
(only the two members used by this strategy). -/
inductive TradeType where
  | BUY : TradeType
  | SELL : TradeType
deriving DecidableEq, Repr

/-- `PositionState` dataclass from
`rocketman_v2/models/position_state.py` (lines 8-23). -/
structure PositionState where
  trading_pair : String
  trade_type : TradeType
  entry_price : ℚ
  amount : ℚ
  current_price : ℚ
  take_profit_price : ℚ
  trailing_stop_activation_price : ℚ
  trailing_stop_price : Option ℚ := none
  is_trailing_stop_activated : Bool := false
deriving DecidableEq, Repr

/-- Python `Decimal` division: raises `DivisionByZero` on a zero divisor,
otherwise exact. -/
def decDiv (a b : ℚ) : Except String ℚ :=
  if b = 0 then Except.error "DivisionByZero" else Except.ok (a / b)

/-- `PositionState.update_price` (position_state.py lines 25-47):
updates `current_price`; if not yet armed, arms the trailing stop when the
signed fractional move from entry reaches the activation delta, seeding
`trailing_stop_price` with the new price; if armed, ratchets
`trailing_stop_price` by `max` (BUY) / `min` (SELL). -/
def update_price (p : PositionState) (new_price : ℚ) : Except String PositionState := do
  let p := { p with current_price := new_price }
  let p ←
    if !p.is_trailing_stop_activated then do
      let price_change ←
        if p.trade_type = TradeType.BUY then
          decDiv (new_price - p.entry_price) p.entry_price
        else
          decDiv (p.entry_price - new_price) p.entry_price
      if price_change ≥ p.trailing_stop_activation_price then
        pure { p with is_trailing_stop_activated := true,
                      trailing_stop_price := some new_price }
      else
        pure p
    else
      pure p
  match p.trailing_stop_price with
  | some ts =>
      if p.is_trailing_stop_activated then
        if p.trade_type = TradeType.BUY then
          pure { p with trailing_stop_price := some (max ts new_price) }
        else
          pure { p with trailing_stop_price := some (min ts new_price) }
      else
        pure p
  | none => pure p

/-- `PositionState.should_take_profit` (position_state.py lines 49-53). -/
def should_take_profit (p : PositionState) : Bool :=
  if p.trade_type = TradeType.BUY then
    p.current_price ≥ p.take_profit_price
  else
    p.current_price ≤ p.take_profit_price

/-- `PositionState.should_stop_loss` (position_state.py lines 55-62):
false when not armed or no trailing price, else a non-strict comparison of
`current_price` against `trailing_stop_price`. -/
def should_stop_loss (p : PositionState) : Bool :=
  match p.trailing_stop_price with
  | none => false
  | some ts =>
      if !p.is_trailing_stop_activated then false
      else if p.trade_type = TradeType.BUY then p.current_price ≤ ts
      else p.current_price ≥ ts

/-- `PositionState.unrealized_pnl` (position_state.py lines 64-70). -/
def unrealized_pnl (p : PositionState) : ℚ :=
  let price_diff := p.current_price - p.entry_price
  let price_diff := if p.trade_type = TradeType.SELL then -price_diff else price_diff
  price_diff * p.amount

/-- `PositionState.unrealized_pnl_percentage` (position_state.py lines 72-75);
a Decimal division, so it raises when `entry_price * amount = 0`. -/
def unrealized_pnl_percentage (p : PositionState) : Except String ℚ := do
  let r ← decDiv (unrealized_pnl p) (p.entry_price * p.amount)
  pure (r * 100)

/-- One candle dict as consumed by `simulate_position`: keys `timestamp`,
`close`, and an optional `trading_pair` (read with
`candles[0].get("trading_pair", "UNKNOWN")`). -/
structure Candle where
  timestamp : ℤ
  close : ℚ
  trading_pair : Option String := none
deriving DecidableEq, Repr

/-- One event dict appended by `simulate_position`
(backtesting_utils.py lines 71-106).  Exit events carry no
`trailing_stop_activated` / `trailing_stop_price` keys; absent keys are
modelled as `none`. -/
structure BacktestEvent where
  timestamp : ℤ
  type : String
  price : ℚ
  pnl : ℚ
  pnl_percentage : ℚ
  trailing_stop_activated : Option Bool := none
  trailing_stop_price : Option (Option ℚ) := none
deriving DecidableEq, Repr

/-- The body of the candle loop of `simulate_position`
(backtesting_utils.py lines 65-106): update the position with the candle
close, then check take-profit, then trailing stop, else record an update
event.  Returns the event appended for this candle and whether the loop
breaks. -/
def simulate_step (position : PositionState) (candle : Candle) :
    Except String (PositionState × BacktestEvent × Bool) := do
  let position ← update_price position candle.close
  if should_take_profit position then do
    let pct ← unrealized_pnl_percentage position
    pure (position,
      { timestamp := candle.timestamp, type := "take_profit",
        price := position.current_price, pnl := unrealized_pnl position,
        pnl_percentage := pct }, true)
  else if should_stop_loss position then do
    let pct ← unrealized_pnl_percentage position
    pure (position,
      { timestamp := candle.timestamp, type := "trailing_stop",
        price := position.current_price, pnl := unrealized_pnl position,
        pnl_percentage := pct }, true)
  else do
    let pct ← unrealized_pnl_percentage position
    pure (position,
      { timestamp := candle.timestamp, type := "update",
        price := position.current_price, pnl := unrealized_pnl position,
        pnl_percentage := pct,
        trailing_stop_activated := some position.is_trailing_stop_activated,
        trailing_stop_price := some position.trailing_stop_price }, false)

/-- The candle loop of `simulate_position`: run `simulate_step` over the
candles, stopping at the first terminal event. -/
def simulate_loop (position : PositionState) :
    List Candle → Except String (PositionState × List BacktestEvent)
  | [] => Except.ok (position, [])
  | c :: cs => do
      let (p, e, stop) ← simulate_step position c
      if stop then
        Except.ok (p, [e])
      else do
        let (q, es) ← simulate_loop p cs
        Except.ok (q, e :: es)

/-- `BacktestingUtils.simulate_position` (backtesting_utils.py lines 37-108).
Empty candles return `(None, [])`.  Note the position is constructed with
`take_profit_price = entry_price * (1 + take_profit_percentage)` for BOTH
trade sides, and `trailing_stop_trailing_delta` is accepted but unused. -/
def simulate_position (candles : List Candle) (entry_price amount : ℚ)
    (trade_type : TradeType)
    (take_profit_percentage trailing_stop_activation_delta
     trailing_stop_trailing_delta : ℚ) :
    Except String (Option PositionState × List BacktestEvent) :=
  match candles with
  | [] => Except.ok (none, [])
  | c0 :: _ =>
      let position : PositionState :=
        { trading_pair := c0.trading_pair.getD "UNKNOWN"
          trade_type := trade_type
          entry_price := entry_price
          amount := amount
          current_price := entry_price
          take_profit_price := entry_price * (1 + take_profit_percentage)
          trailing_stop_activation_price := trailing_stop_activation_delta }
      do
        let (p, es) ← simulate_loop position candles
        Except.ok (some p, es)

/-- The metrics dict built by `analyze_backtest_results`
(backtesting_utils.py lines 110-137). -/
structure BacktestMetrics where
  start_timestamp : ℤ
  end_timestamp : ℤ
  final_pnl : ℚ
  final_pnl_percentage : ℚ
  max_pnl : ℚ
  min_pnl : ℚ
  max_drawdown : ℚ
  exit_reason : String
deriving DecidableEq, Repr

/-- The drawdown pass of `analyze_backtest_results` (lines 127-135): peak
starts at `-inf` (modelled as `none`), `drawdown = peak - pnl`, and
`max_drawdown` is the running maximum of drawdowns, starting at `0`. -/
def max_drawdown_scan (events : List BacktestEvent) : ℚ :=
  (events.foldl
    (fun (acc : ℚ × Option ℚ) e =>
      let peak := max (acc.2.getD e.pnl) e.pnl
      (max acc.1 (peak - e.pnl), some peak))
    (0, none)).1

/-- `BacktestingUtils.analyze_backtest_results` (backtesting_utils.py
lines 110-137); an empty event list yields the empty dict, modelled `none`.
`exit_reason` is taken from the LAST event's `type` key. -/
def analyze_backtest_results (events : List BacktestEvent) :
    Option BacktestMetrics :=
  match events with
  | [] => none
  | e0 :: rest =>
      let last := (e0 :: rest).getLast (by simp)
      some
        { start_timestamp := e0.timestamp
          end_timestamp := last.timestamp
          final_pnl := last.pnl
          final_pnl_percentage := last.pnl_percentage
          max_pnl := ((e0 :: rest).map BacktestEvent.pnl).foldl max e0.pnl
          min_pnl := ((e0 :: rest).map BacktestEvent.pnl).foldl min e0.pnl
          max_drawdown := max_drawdown_scan (e0 :: rest)
          exit_reason := last.type }

/-- `RocketmanConfig` dataclass
(rocketman_v2/configs/rocketman_config.py, the fields used by the
backtesting executor). -/
structure RocketmanConfig where
  connector_name : String
  trading_pair : String
  order_amount : ℚ
  leverage : ℤ := 1
  take_profit_percentage : ℚ
  trailing_stop_activation_price_delta : ℚ
  trailing_stop_trailing_delta : ℚ
deriving DecidableEq, Repr

/-- Constructing a `RocketmanConfig` runs `__post_init__`
(rocketman_config.py lines 36-54): it raises `ValueError` on any
non-positive `order_amount`, `leverage`, `take_profit_percentage`,
`trailing_stop_activation_price_delta` or `trailing_stop_trailing_delta`,
in that order. -/
def mkRocketmanConfig (connector_name trading_pair : String)
    (order_amount : ℚ) (leverage : ℤ)
    (take_profit_percentage trailing_stop_activation_price_delta
     trailing_stop_trailing_delta : ℚ) : Except String RocketmanConfig :=
  if order_amount ≤ 0 then
    Except.error "order_amount must be positive"
  else if leverage ≤ 0 then
    Except.error "leverage must be positive"
  else if take_profit_percentage ≤ 0 then
    Except.error "take_profit_percentage must be positive"
  else if trailing_stop_activation_price_delta ≤ 0 then
    Except.error "trailing_stop_activation_price_delta must be positive"
  else if trailing_stop_trailing_delta ≤ 0 then
    Except.error "trailing_stop_trailing_delta must be positive"
  else
    Except.ok
      { connector_name := connector_name, trading_pair := trading_pair,
        order_amount := order_amount, leverage := leverage,
        take_profit_percentage := take_profit_percentage,
        trailing_stop_activation_price_delta :=
          trailing_stop_activation_price_delta,
        trailing_stop_trailing_delta := trailing_stop_trailing_delta }

/-- One result dict of the parameter sweep: the metrics of
`analyze_backtest_results` merged with the `parameters` tag
(backtesting_executor.py lines 151-161). -/
structure SweepResult where
  metrics : Option BacktestMetrics
  take_profit_percentage : ℚ
  trailing_stop_activation_delta : ℚ
  trailing_stop_trailing_delta : ℚ
deriving DecidableEq, Repr

/-- The loop body of `run_parameter_optimization` for one parameter
combination (backtesting_executor.py lines 126-161): construct a temporary
validated config, simulate the position, analyze the events.  Any raised
error escapes; the source has no try/except here. -/
def sweep_combination (candles : List Candle) (config : RocketmanConfig)
    (trade_type : TradeType) (entry_price tp tsa tst : ℚ) :
    Except String SweepResult := do
  let temp_config ← mkRocketmanConfig config.connector_name
    config.trading_pair config.order_amount 1 tp tsa tst
  let (_, events) ← simulate_position candles entry_price
    temp_config.order_amount trade_type tp tsa tst
  pure { metrics := analyze_backtest_results events,
         take_profit_percentage := tp,
         trailing_stop_activation_delta := tsa,
         trailing_stop_trailing_delta := tst }

/-- Sort key of the final `results.sort`: `float(x["final_pnl_percentage"])`
(backtesting_executor.py line 164); `0` stands for the unreachable
missing-key case. -/
def sweep_sort_key (r : SweepResult) : ℚ :=
  (r.metrics.map BacktestMetrics.final_pnl_percentage).getD 0

/-- The cartesian product of the three parameter ranges, in the nested
loop order of the source (take-profit outermost, trailing delta
innermost). -/
def sweep_combos (take_profit_range trailing_stop_activation_range
    trailing_stop_trailing_range : List ℚ) : List (ℚ × ℚ × ℚ) :=
  take_profit_range.flatMap (fun tp =>
    trailing_stop_activation_range.flatMap (fun tsa =>
      trailing_stop_trailing_range.map (fun tst => (tp, tsa, tst))))

/-- The sequential sweep loop: run `sweep_combination` for each grid
point in order, collecting results; an error in any combination
propagates (the source loop has no try/except). -/
def sweep_runs (candles : List Candle) (config : RocketmanConfig)
    (trade_type : TradeType) (entry_price : ℚ) :
    List (ℚ × ℚ × ℚ) → Except String (List SweepResult)
  | [] => Except.ok []
  | c :: rest => do
      let r ← sweep_combination candles config trade_type entry_price
        c.1 c.2.1 c.2.2
      let rs ← sweep_runs candles config trade_type entry_price rest
      Except.ok (r :: rs)

/-- `BacktestingExecutor.run_parameter_optimization`
(backtesting_executor.py lines 86-165), modelled from the point where the
candles have been loaded (`load_candles` is excluded I/O glue): empty
candles return the empty result list; otherwise the entry price is the
first candle's close and the cartesian product of the three ranges is
swept in nested-loop order, with no error handling around a combination;
finally results are sorted descending by `final_pnl_percentage` (a stable
sort, as in Python). -/
def run_parameter_optimization (candles : List Candle)
    (config : RocketmanConfig) (trade_type : TradeType)
    (take_profit_range trailing_stop_activation_range
     trailing_stop_trailing_range : List ℚ) :
    Except String (List SweepResult) :=
  match candles with
  | [] => Except.ok []
  | c0 :: _ => do
      let results ← sweep_runs candles config trade_type c0.close
        (sweep_combos take_profit_range trailing_stop_activation_range
          trailing_stop_trailing_range)
      pure (results.mergeSort (fun a b => sweep_sort_key b ≤ sweep_sort_key a))

/-! ### Indicator engine (`strategy/rocketman/rocketman_controller.py`)

The indicator functions run on pandas float series.  Finite float values
are idealized as exact numbers; the IEEE special values `nan`/`inf`
produced by numpy division are modelled explicitly by `FloatQ` for the
RSI pipeline, and warm-up `NaN`s of `rolling` are modelled as `none` /
`FloatQ.nan`.  Bollinger bands need a square root, hence real numbers. -/

/-- A pandas/numpy float64 value idealized: `nan`, the two infinities, or
an exact finite value. -/
inductive FloatQ where
  | nan : FloatQ
  | inf : FloatQ
  | ninf : FloatQ
  | fin : ℚ → FloatQ
deriving DecidableEq, Repr

/-- IEEE-style addition on `FloatQ` (signed zeros idealized away). -/
def fadd : FloatQ → FloatQ → FloatQ
  | FloatQ.nan, _ => FloatQ.nan
  | _, FloatQ.nan => FloatQ.nan
  | FloatQ.inf, FloatQ.ninf => FloatQ.nan
  | FloatQ.ninf, FloatQ.inf => FloatQ.nan
  | FloatQ.inf, _ => FloatQ.inf
  | _, FloatQ.inf => FloatQ.inf
  | FloatQ.ninf, _ => FloatQ.ninf
  | _, FloatQ.ninf => FloatQ.ninf
  | FloatQ.fin a, FloatQ.fin b => FloatQ.fin (a + b)

/-- IEEE-style subtraction on `FloatQ`. -/
def fsub : FloatQ → FloatQ → FloatQ
  | FloatQ.nan, _ => FloatQ.nan
  | _, FloatQ.nan => FloatQ.nan
  | FloatQ.inf, FloatQ.inf => FloatQ.nan
  | FloatQ.ninf, FloatQ.ninf => FloatQ.nan
  | FloatQ.inf, _ => FloatQ.inf
  | _, FloatQ.ninf => FloatQ.inf
  | FloatQ.ninf, _ => FloatQ.ninf
  | _, FloatQ.inf => FloatQ.ninf
  | FloatQ.fin a, FloatQ.fin b => FloatQ.fin (a - b)

/-- IEEE-style division on `FloatQ`: numpy gives `0/0 = nan` and
`x/0 = ±inf` for `x ≠ 0` (signed zeros idealized away). -/
def fdiv : FloatQ → FloatQ → FloatQ
  | FloatQ.nan, _ => FloatQ.nan
  | _, FloatQ.nan => FloatQ.nan
  | FloatQ.inf, FloatQ.inf => FloatQ.nan
  | FloatQ.inf, FloatQ.ninf => FloatQ.nan
  | FloatQ.ninf, FloatQ.inf => FloatQ.nan
  | FloatQ.ninf, FloatQ.ninf => FloatQ.nan
  | FloatQ.inf, FloatQ.fin q => if 0 ≤ q then FloatQ.inf else FloatQ.ninf
  | FloatQ.ninf, FloatQ.fin q => if 0 ≤ q then FloatQ.ninf else FloatQ.inf
  | FloatQ.fin _, FloatQ.inf => FloatQ.fin 0
  | FloatQ.fin _, FloatQ.ninf => FloatQ.fin 0
  | FloatQ.fin a, FloatQ.fin b =>
      if b = 0 then
        if a = 0 then FloatQ.nan
        else if 0 < a then FloatQ.inf else FloatQ.ninf
      else FloatQ.fin (a / b)

/-- The gain series of `calculate_rsi`: `delta.where(delta > 0, 0)`
where `delta = series.diff()`.  Index 0 of `diff` is `NaN`; `NaN > 0` is
false, so `where` maps it to `0` and the gain series is a plain finite
series. -/
def rsi_gain (series : List ℚ) : List ℚ :=
  (List.range series.length).map (fun i =>
    if i = 0 then 0
    else
      let d := series.getD i 0 - series.getD (i - 1) 0
      if 0 < d then d else 0)

/-- The loss series of `calculate_rsi`: `-delta.where(delta < 0, 0)`,
likewise finite, with losses as positive magnitudes. -/
def rsi_loss (series : List ℚ) : List ℚ :=
  (List.range series.length).map (fun i =>
    if i = 0 then 0
    else
      let d := series.getD i 0 - series.getD (i - 1) 0
      if d < 0 then -d else 0)

/-- The value `Series.rolling(window=period).mean()` computes at index
`i` of a finite series: `NaN` (warm-up) before `period` values are
available, else the arithmetic mean of the trailing `period`-value
window. -/
def rollingMeanAt (xs : List ℚ) (period i : ℕ) : FloatQ :=
  if period ≤ i + 1 then
    FloatQ.fin ((((xs.take (i + 1)).drop (i + 1 - period)).sum) / period)
  else FloatQ.nan

/-- `Series.rolling(window=period).mean()` on a finite series. -/
def rolling_mean_q (xs : List ℚ) (period : ℕ) : List FloatQ :=
  (List.range xs.length).map (rollingMeanAt xs period)

/-- `RocketmanController.calculate_rsi` (rocketman_controller.py lines
99-105): `rs = gain / loss`, `rsi = 100 - 100/(1 + rs)`, elementwise with
numpy float semantics. -/
def calculate_rsi (series : List ℚ) (period : ℕ) : List FloatQ :=
  let gain := rolling_mean_q (rsi_gain series) period
  let loss := rolling_mean_q (rsi_loss series) period
  let rs := List.zipWith fdiv gain loss
  rs.map (fun r => fsub (FloatQ.fin 100) (fdiv (FloatQ.fin 100) (fadd (FloatQ.fin 1) r)))

/-- Mean of a list of reals, `sum / length`. -/
noncomputable def listMean (l : List ℝ) : ℝ := l.sum / l.length

/-- `Series.rolling(window=period).std()`: pandas default `ddof = 1`,
i.e. the SAMPLE standard deviation of the window (denominator
`length - 1`). -/
noncomputable def sampleStd (l : List ℝ) : ℝ :=
  Real.sqrt ((l.map (fun x => (x - listMean l) ^ 2)).sum / ((l.length : ℝ) - 1))

/-- The trailing window pandas `rolling(window=period)` uses at index `i`:
the last `period` elements ending at `i`, absent during warm-up. -/
def rollingWindow (xs : List ℝ) (period i : ℕ) : Option (List ℝ) :=
  if period ≤ i + 1 then some ((xs.take (i + 1)).drop (i + 1 - period)) else none

/-- `series.rolling(window=period).mean()` over reals, warm-up as `none`. -/
noncomputable def rolling_mean_r (xs : List ℝ) (period : ℕ) : List (Option ℝ) :=
  (List.range xs.length).map (fun i => (rollingWindow xs period i).map listMean)

/-- `series.rolling(window=period).std()` over reals, warm-up as `none`. -/
noncomputable def rolling_std_r (xs : List ℝ) (period : ℕ) : List (Option ℝ) :=
  (List.range xs.length).map (fun i => (rollingWindow xs period i).map sampleStd)

/-- `RocketmanController.calculate_bollinger_bands`
(rocketman_controller.py lines 107-115): returns
`(upper_band, rolling_mean, lower_band)` with
`upper = mean + std * std_dev`, `lower = mean - std * std_dev`. -/
noncomputable def calculate_bollinger_bands (xs : List ℝ) (period : ℕ)
    (std_dev : ℝ) :
    List (Option ℝ) × List (Option ℝ) × List (Option ℝ) :=
  let rolling_mean := rolling_mean_r xs period
  let rolling_std := rolling_std_r xs period
  let upper_band := List.zipWith
    (fun m s => m.bind (fun mv => s.map (fun sv => mv + sv * std_dev)))
    rolling_mean rolling_std
  let lower_band := List.zipWith
    (fun m s => m.bind (fun mv => s.map (fun sv => mv - sv * std_dev)))
    rolling_mean rolling_std
  (upper_band, rolling_mean, lower_band)

/-! ### Spec-side indicator definitions

These follow the wording of the specification (section 4.2), for
comparison with the code-side definitions above. -/

/-- Spec: the simple moving average over the trailing `period`-close
window ending at index `i`. -/
noncomputable def specSMA (xs : List ℝ) (period i : ℕ) : ℝ :=
  (∑ j ∈ Finset.Ico (i + 1 - period) (i + 1), xs.getD j 0) / period

/-- Spec: the POPULATION standard deviation over the trailing window
(denominator `period`). -/
noncomputable def specPopStd (xs : List ℝ) (period i : ℕ) : ℝ :=
  Real.sqrt
    ((∑ j ∈ Finset.Ico (i + 1 - period) (i + 1),
        (xs.getD j 0 - specSMA xs period i) ^ 2) / period)

/-- Spec: the sample standard deviation over the trailing window
(denominator `period - 1`), the variant the code actually computes. -/
noncomputable def specSampleStd (xs : List ℝ) (period i : ℕ) : ℝ :=
  Real.sqrt
    ((∑ j ∈ Finset.Ico (i + 1 - period) (i + 1),
        (xs.getD j 0 - specSMA xs period i) ^ 2) / ((period : ℝ) - 1))

/-- A sequence of `update_price` calls, as performed once per processed
bar; any raised `DivisionByZero` escapes. -/
def update_many (p : PositionState) : List ℚ → Except String PositionState
  | [] => Except.ok p
  | x :: xs => do update_many (← update_price p x) xs

/-! ### Concrete inputs used by witnesses and counterexamples -/

/-- A fresh BUY position: entry 100, take-profit 105, activation delta 1%. -/
def pBuy100 : PositionState :=
  { trading_pair := "T", trade_type := TradeType.BUY, entry_price := 100,
    amount := 1, current_price := 100, take_profit_price := 105,
    trailing_stop_activation_price := 1 / 100 }

/-- `pBuy100` after `update_price 100.5`: not armed (0.5% < 1%). -/
def pBuy100half : PositionState := { pBuy100 with current_price := 201 / 2 }

/-- `pBuy100` after `update_price 101`: armed (1% ≥ 1%), trailing seeded
at 101. -/
def pBuy100arm : PositionState :=
  { pBuy100 with
    current_price := 101, is_trailing_stop_activated := true,
    trailing_stop_price := some 101 }

/-- An armed BUY position whose trailing stop (106) sits above its
take-profit price (105). -/
def pBoth : PositionState :=
  { trading_pair := "T", trade_type := TradeType.BUY, entry_price := 100,
    amount := 1, current_price := 104, take_profit_price := 105,
    trailing_stop_activation_price := 1 / 100,
    trailing_stop_price := some 106, is_trailing_stop_activated := true }

/-- `pBoth` after `update_price 105`: both exit conditions hold. -/
def qBoth : PositionState := { pBoth with current_price := 105 }

/-- A baseline sweep config with positive parameters. -/
def cfgEx : RocketmanConfig :=
  { connector_name := "jupiter", trading_pair := "T", order_amount := 1,
    take_profit_percentage := 1 / 20,
    trailing_stop_activation_price_delta := 1 / 100,
    trailing_stop_trailing_delta := 1 / 200 }

/-- A two-event log ending in a take-profit event. -/
def eventsEx : List BacktestEvent :=
  [{ timestamp := 0, type := "update", price := 101, pnl := 1,
     pnl_percentage := 1, trailing_stop_activated := some false,
     trailing_stop_price := some none },
   { timestamp := 1, type := "take_profit", price := 105, pnl := 5,
     pnl_percentage := 5 }]

/-- The SELL position constructed by `simulate_position` at entry 100 with
take-profit percentage 5%: its take-profit price is `100*(1+5/100) = 105`,
ABOVE the entry, although the SELL exit test is `current ≤ take_profit`. -/
def pSell100 : PositionState :=
  { trading_pair := "UNKNOWN", trade_type := TradeType.SELL,
    entry_price := 100, amount := 1, current_price := 100,
    take_profit_price := 105, trailing_stop_activation_price := 1 / 100 }

/-- `pBoth` after a close of 99 (trailing stop unchanged at 106). -/
def pBoth99 : PositionState := { pBoth with current_price := 99 }

/-- `pBoth99` after a close of 107 (trailing stop ratcheted to 107). -/
def pBoth107 : PositionState :=
  { pBoth with current_price := 107, trailing_stop_price := some 107 }

/-- The not-yet-armed BUY position of the C3 run (activation delta 50%,
never reached). -/
def pBuyFar : PositionState :=
  { trading_pair := "UNKNOWN", trade_type := TradeType.BUY,
    entry_price := 100, amount := 1, current_price := 100,
    take_profit_price := 105, trailing_stop_activation_price := 1 / 2 }

/-! ## Helper lemmas -/

/-- A successful `update_price` on a not-yet-armed position implies the
entry price is nonzero (otherwise the arming check's division raises). -/
theorem update_price_entry_ne_zero (p : PositionState) (new_price : ℚ)
    (q : PositionState) (hact : p.is_trailing_stop_activated = false)
    (h : update_price p new_price = Except.ok q) : p.entry_price ≠ 0 := by
  intro h0
  simp [update_price, decDiv, hact, h0, Bind.bind, Except.bind] at h

/-- Characterization of `update_price` on a not-yet-armed position:
either the fractional move reaches the activation delta and the position
arms with `trailing_stop_price` seeded at the new price, or only
`current_price` changes. -/
theorem update_price_of_not_activated (p : PositionState) (new_price : ℚ)
    (hact : p.is_trailing_stop_activated = false) (hne : p.entry_price ≠ 0) :
    update_price p new_price = Except.ok (
      if (if p.trade_type = TradeType.BUY then
            (new_price - p.entry_price) / p.entry_price
          else (p.entry_price - new_price) / p.entry_price) ≥
          p.trailing_stop_activation_price then
        { p with current_price := new_price,
                 is_trailing_stop_activated := true,
                 trailing_stop_price := some new_price }
      else { p with current_price := new_price }) := by
  rcases hbs : p.trade_type with _ | _ <;>
    rcases hts : p.trailing_stop_price with _ | ts <;>
      simp [update_price, decDiv, hact, hne, hbs, hts, Bind.bind, Except.bind,
        Pure.pure, Except.pure, max_self, min_self] <;>
        split_ifs <;> simp_all

/-- Characterization of `update_price` on an armed position with a
trailing price: no division happens and the trailing price ratchets by
`max` (BUY) / `min` (SELL). -/
theorem update_price_of_activated (p : PositionState) (new_price ts : ℚ)
    (hact : p.is_trailing_stop_activated = true)
    (hts : p.trailing_stop_price = some ts) :
    update_price p new_price = Except.ok
      { p with current_price := new_price,
               trailing_stop_price := some
                 (if p.trade_type = TradeType.BUY then max ts new_price
                  else min ts new_price) } := by
  rcases hbs : p.trade_type with _ | _ <;>
    simp [update_price, hact, hts, hbs, Bind.bind, Except.bind, Pure.pure, Except.pure]

/-- Characterization of `update_price` on an armed position without a
trailing price (not reachable from a freshly constructed position):
only `current_price` changes. -/
theorem update_price_of_activated_none (p : PositionState) (new_price : ℚ)
    (hact : p.is_trailing_stop_activated = true)
    (hts : p.trailing_stop_price = none) :
    update_price p new_price =
      Except.ok { p with current_price := new_price } := by
  simp [update_price, hact, hts, Bind.bind, Except.bind, Pure.pure, Except.pure]

/-- `update_price` never changes the identity fields of a position, sets
`current_price` to the argument, and never disarms an armed trailing
stop. -/
theorem update_price_preserves (p : PositionState) (new_price : ℚ)
    (q : PositionState) (h : update_price p new_price = Except.ok q) :
    q.entry_price = p.entry_price ∧ q.amount = p.amount ∧
    q.trade_type = p.trade_type ∧
    q.take_profit_price = p.take_profit_price ∧
    q.trailing_stop_activation_price = p.trailing_stop_activation_price ∧
    q.current_price = new_price ∧
    (p.is_trailing_stop_activated = true →
      q.is_trailing_stop_activated = true) := by
  rcases hact : p.is_trailing_stop_activated with _ | _
  · have hne := update_price_entry_ne_zero p new_price q hact h
    rw [update_price_of_not_activated p new_price hact hne] at h
    split_ifs at h <;> simp only [Except.ok.injEq] at h <;> subst h <;>
      simp_all
  · rcases hts : p.trailing_stop_price with _ | ts
    · rw [update_price_of_activated_none p new_price hact hts] at h
      simp only [Except.ok.injEq] at h
      subst h
      simp_all
    · rw [update_price_of_activated p new_price ts hact hts] at h
      simp only [Except.ok.injEq] at h
      subst h
      simp_all

/-- The loop body records a take-profit event and breaks whenever
`should_take_profit` holds after the price update. -/
theorem simulate_step_eq_take_profit (p : PositionState) (c : Candle)
    (q : PositionState) (v : ℚ)
    (hup : update_price p c.close = Except.ok q)
    (htp : should_take_profit q = true)
    (hpct : unrealized_pnl_percentage q = Except.ok v) :
    simulate_step p c = Except.ok (q,
      { timestamp := c.timestamp, type := "take_profit",
        price := q.current_price, pnl := unrealized_pnl q,
        pnl_percentage := v }, true) := by
  simp [simulate_step, hup, htp, hpct, Bind.bind, Except.bind, Pure.pure,
    Except.pure]

/-- The loop body records a trailing-stop event and breaks whenever
`should_stop_loss` holds and `should_take_profit` does not. -/
theorem simulate_step_eq_trailing_stop (p : PositionState) (c : Candle)
    (q : PositionState) (v : ℚ)
    (hup : update_price p c.close = Except.ok q)
    (htp : should_take_profit q = false)
    (hsl : should_stop_loss q = true)
    (hpct : unrealized_pnl_percentage q = Except.ok v) :
    simulate_step p c = Except.ok (q,
      { timestamp := c.timestamp, type := "trailing_stop",
        price := q.current_price, pnl := unrealized_pnl q,
        pnl_percentage := v }, true) := by
  simp [simulate_step, hup, htp, hsl, hpct, Bind.bind, Except.bind,
    Pure.pure, Except.pure]

/-- The loop body records an `update` event and continues whenever
neither exit condition holds after the price update. -/
theorem simulate_step_eq_update (p : PositionState) (c : Candle)
    (q : PositionState) (v : ℚ)
    (hup : update_price p c.close = Except.ok q)
    (htp : should_take_profit q = false)
    (hsl : should_stop_loss q = false)
    (hpct : unrealized_pnl_percentage q = Except.ok v) :
    simulate_step p c = Except.ok (q,
      { timestamp := c.timestamp, type := "update",
        price := q.current_price, pnl := unrealized_pnl q,
        pnl_percentage := v,
        trailing_stop_activated := some q.is_trailing_stop_activated,
        trailing_stop_price := some q.trailing_stop_price }, false) := by
  simp [simulate_step, hup, htp, hsl, hpct, Bind.bind, Except.bind,
    Pure.pure, Except.pure]

/-! ## Claim theorems -/

/-- C1: the claim says `take_profit_price = entry_price*(1+take_profit_pct)`
for BUY and `entry_price*(1-take_profit_pct)` for SELL.  The code sets
`entry_price*(1+take_profit_percentage)` for BOTH sides
(backtesting_utils.py line 61).  At the failing input — a SELL position,
entry 100, take-profit 5%, first candle close 100 — the constructed
position carries `take_profit_price = 105` (not `95 = 100*(1-5/100)`), and
because the SELL exit test is `current_price ≤ take_profit_price`, the
position fires `take_profit` immediately on the first bar at zero
profit. -/
theorem c1_sell_take_profit_price_eval :
    simulate_position [{ timestamp := 0, close := 100 }] 100 1
        TradeType.SELL (5 / 100) (1 / 100) (5 / 1000) =
      Except.ok (some pSell100,
        [{ timestamp := 0, type := "take_profit", price := 100, pnl := 0,
           pnl_percentage := 0 }]) ∧
    pSell100.take_profit_price = 100 * (1 + 5 / 100) ∧
    pSell100.take_profit_price ≠ 100 * (1 - 5 / 100) ∧
    should_take_profit pSell100 = true ∧ unrealized_pnl pSell100 = 0 := by
  refine ⟨?_, by norm_num [pSell100], by norm_num [pSell100], ?_, ?_⟩
  · norm_num [simulate_position, simulate_loop, simulate_step, update_price,
      decDiv, should_take_profit, should_stop_loss, unrealized_pnl,
      unrealized_pnl_percentage, pSell100, Bind.bind, Except.bind,
      Pure.pure, Except.pure]
    all_goals ((try split_ifs) <;> simp_all)
  · norm_num [should_take_profit, pSell100]
    all_goals ((try split_ifs) <;> simp_all)
  · norm_num [unrealized_pnl, pSell100]
    all_goals ((try split_ifs) <;> simp_all)

/-- C4: the result of `simulate_position` is independent of the
`trailing_stop_trailing_delta` argument, which is accepted but never
used. -/
theorem c4_independent_of_trailing_delta (candles : List Candle)
    (entry_price amount : ℚ) (trade_type : TradeType)
    (take_profit_percentage trailing_stop_activation_delta d₁ d₂ : ℚ) :
    simulate_position candles entry_price amount trade_type
        take_profit_percentage trailing_stop_activation_delta d₁ =
      simulate_position candles entry_price amount trade_type
        take_profit_percentage trailing_stop_activation_delta d₂ := rfl

/-- C10: a not-yet-armed position arms on `update_price` exactly when the
signed fractional price change relative to entry (`(new-entry)/entry` for
BUY, `(entry-new)/entry` for SELL) is `≥` the stored activation delta. -/
theorem c10_arming_threshold (p : PositionState) (new_price : ℚ)
    (q : PositionState) (hact : p.is_trailing_stop_activated = false)
    (h : update_price p new_price = Except.ok q) :
    q.is_trailing_stop_activated = true ↔
      (if p.trade_type = TradeType.BUY then
         (new_price - p.entry_price) / p.entry_price
       else (p.entry_price - new_price) / p.entry_price) ≥
      p.trailing_stop_activation_price := by
  have hne := update_price_entry_ne_zero p new_price q hact h
  rw [update_price_of_not_activated p new_price hact hne] at h
  simp only [Except.ok.injEq] at h
  by_cases hc : (if p.trade_type = TradeType.BUY then
      (new_price - p.entry_price) / p.entry_price
    else (p.entry_price - new_price) / p.entry_price) ≥
      p.trailing_stop_activation_price
  · rw [if_pos hc] at h
    subst h
    simpa using hc
  · rw [if_neg hc] at h
    subst h
    simpa [hact] using hc

/-- Witness for C10 at the claim's own numbers: a BUY position with entry
100 and activation delta 0.01 does not arm on price 100.5 but does arm on
price 101. -/
theorem c10_arming_threshold_witness :
    pBuy100half.is_trailing_stop_activated = false ∧
    pBuy100arm.is_trailing_stop_activated = true := by
  have hup1 : update_price pBuy100 (201 / 2) = Except.ok pBuy100half := by
    rw [update_price_of_not_activated pBuy100 (201 / 2) rfl
      (by norm_num [pBuy100])]
    norm_num [pBuy100, pBuy100half]
  have hup2 : update_price pBuy100 101 = Except.ok pBuy100arm := by
    rw [update_price_of_not_activated pBuy100 101 rfl
      (by norm_num [pBuy100])]
    norm_num [pBuy100, pBuy100arm]
  constructor
  · have h := c10_arming_threshold pBuy100 (201 / 2) pBuy100half rfl hup1
    rcases hb : pBuy100half.is_trailing_stop_activated with _ | _
    · rfl
    · exact absurd (h.mp hb) (by norm_num [pBuy100])
  · exact (c10_arming_threshold pBuy100 101 pBuy100arm rfl hup2).mpr
      (by norm_num [pBuy100])

/-- C2: on the `update_price` call that arms the trailing stop, the
trailing price is seeded at exactly the new current price, so the
non-strict `should_stop_loss` comparison holds immediately for both
sides; consequently the arming bar of `simulate_position` records a
`trailing_stop` exit event unless take-profit fires first on that bar. -/
theorem c2_arming_bar_triggers_trailing_stop (p : PositionState)
    (c : Candle) (q : PositionState) (v : ℚ)
    (hact : p.is_trailing_stop_activated = false)
    (hup : update_price p c.close = Except.ok q)
    (harm : q.is_trailing_stop_activated = true)
    (hpct : unrealized_pnl_percentage q = Except.ok v) :
    should_stop_loss q = true ∧
    (should_take_profit q = false →
      simulate_step p c = Except.ok (q,
        { timestamp := c.timestamp, type := "trailing_stop",
          price := q.current_price, pnl := unrealized_pnl q,
          pnl_percentage := v }, true)) := by
  have hsl : should_stop_loss q = true := by
    have hne := update_price_entry_ne_zero p c.close q hact hup
    have h := hup
    rw [update_price_of_not_activated p c.close hact hne] at h
    simp only [Except.ok.injEq] at h
    by_cases hc : (if p.trade_type = TradeType.BUY then
        (c.close - p.entry_price) / p.entry_price
      else (p.entry_price - c.close) / p.entry_price) ≥
        p.trailing_stop_activation_price
    · rw [if_pos hc] at h
      subst h
      rcases hbs : p.trade_type with _ | _ <;> simp [should_stop_loss, hbs]
    · rw [if_neg hc] at h
      subst h
      simp_all
  exact ⟨hsl, fun htp =>
    simulate_step_eq_trailing_stop p c q v hup htp hsl hpct⟩

/-- Witness for C2: the fresh BUY position `pBuy100` arms on close 101
(1% move) and the very same bar satisfies `should_stop_loss` and records a
`trailing_stop` exit event. -/
theorem c2_arming_bar_witness :
    should_stop_loss pBuy100arm = true ∧
    simulate_step pBuy100 { timestamp := 3, close := 101 } =
      Except.ok (pBuy100arm,
        { timestamp := 3, type := "trailing_stop", price := 101, pnl := 1,
          pnl_percentage := 1 }, true) := by
  have hup : update_price pBuy100 101 = Except.ok pBuy100arm := by
    rw [update_price_of_not_activated pBuy100 101 rfl
      (by norm_num [pBuy100])]
    norm_num [pBuy100, pBuy100arm]
  have hpct : unrealized_pnl_percentage pBuy100arm = Except.ok 1 := by
    norm_num [unrealized_pnl_percentage, unrealized_pnl, decDiv,
      pBuy100arm, pBuy100, Bind.bind, Except.bind, Pure.pure, Except.pure]
    all_goals ((try split_ifs) <;> simp_all)
  have h := c2_arming_bar_triggers_trailing_stop pBuy100
    { timestamp := 3, close := 101 } pBuy100arm 1 rfl hup rfl hpct
  have htp : should_take_profit pBuy100arm = false := by
    norm_num [should_take_profit, pBuy100arm, pBuy100]
    all_goals ((try split_ifs) <;> simp_all)
  refine ⟨h.1, ?_⟩
  have hcur : pBuy100arm.current_price = 101 := rfl
  have hpnl : unrealized_pnl pBuy100arm = 1 := by
    norm_num [unrealized_pnl, pBuy100arm, pBuy100]
    all_goals ((try split_ifs) <;> simp_all)
  rw [h.2 htp]
  simp [hcur, hpnl]

/-- C9: when a processed bar satisfies both the take-profit and the
(armed) trailing-stop condition after its price update, the single event
appended for that bar is a `take_profit` event, because
`should_take_profit` is evaluated first and terminates the replay. -/
theorem c9_exit_priority (p : PositionState) (c : Candle)
    (cs : List Candle) (q : PositionState) (v : ℚ)
    (hup : update_price p c.close = Except.ok q)
    (htp : should_take_profit q = true)
    (hsl : should_stop_loss q = true)
    (hpct : unrealized_pnl_percentage q = Except.ok v) :
    simulate_loop p (c :: cs) = Except.ok (q,
      [{ timestamp := c.timestamp, type := "take_profit",
         price := q.current_price, pnl := unrealized_pnl q,
         pnl_percentage := v }]) := by
  have hstep := simulate_step_eq_take_profit p c q v hup htp hpct
  simp [simulate_loop, hstep, Bind.bind, Except.bind]

/-- Witness for C9: an armed BUY position with trailing stop 106 and
take-profit 105 sees close 105; both exit conditions hold and the
recorded event kind is `take_profit`. -/
theorem c9_exit_priority_witness :
    should_take_profit qBoth = true ∧ should_stop_loss qBoth = true ∧
    simulate_loop pBoth [{ timestamp := 7, close := 105 }] =
      Except.ok (qBoth,
        [{ timestamp := 7, type := "take_profit", price := 105, pnl := 5,
           pnl_percentage := 5 }]) := by
  have htp : should_take_profit qBoth = true := by
    norm_num [should_take_profit, qBoth, pBoth]
  have hsl : should_stop_loss qBoth = true := by
    norm_num [should_stop_loss, qBoth, pBoth]
  have hup : update_price pBoth 105 = Except.ok qBoth := by
    rw [update_price_of_activated pBoth 105 106 rfl rfl]
    norm_num [pBoth, qBoth]
    all_goals ((try split_ifs) <;> simp_all)
  have hpct : unrealized_pnl_percentage qBoth = Except.ok 5 := by
    norm_num [unrealized_pnl_percentage, unrealized_pnl, decDiv, qBoth,
      pBoth, Bind.bind, Except.bind, Pure.pure, Except.pure]
    all_goals ((try split_ifs) <;> simp_all)
  have h := c9_exit_priority pBoth { timestamp := 7, close := 105 } []
    qBoth 5 hup htp hsl hpct
  have hcur : qBoth.current_price = 105 := rfl
  have hpnl : unrealized_pnl qBoth = 5 := by
    norm_num [unrealized_pnl, qBoth, pBoth]
    all_goals ((try split_ifs) <;> simp_all)
  refine ⟨htp, hsl, ?_⟩
  rw [h]
  simp [hcur, hpnl]


/-- Splitting a successful `update_many` over a cons. -/
theorem update_many_cons (p : PositionState) (a : ℚ) (as : List ℚ)
    (q : PositionState) (h : update_many p (a :: as) = Except.ok q) :
    ∃ p₁, update_price p a = Except.ok p₁ ∧
      update_many p₁ as = Except.ok q := by
  rcases ha : update_price p a with e | p₁
  · simp [update_many, ha, Bind.bind, Except.bind] at h
  · exact ⟨p₁, rfl, by simpa [update_many, ha, Bind.bind, Except.bind] using h⟩

/-- One `update_price` step never discards a present trailing stop price,
and on an armed position it ratchets it monotonically per side. -/
theorem update_price_trailing_mono (p : PositionState) (new_price : ℚ)
    (q : PositionState) (x : ℚ)
    (h : update_price p new_price = Except.ok q)
    (hx : p.trailing_stop_price = some x) :
    ∃ y, q.trailing_stop_price = some y ∧
      (p.is_trailing_stop_activated = true →
        (p.trade_type = TradeType.BUY → x ≤ y) ∧
        (p.trade_type = TradeType.SELL → y ≤ x)) := by
  rcases hact : p.is_trailing_stop_activated with _ | _
  · have hne := update_price_entry_ne_zero p new_price q hact h
    rw [update_price_of_not_activated p new_price hact hne] at h
    simp only [Except.ok.injEq] at h
    split_ifs at h <;> subst h <;> simp_all
  · rw [update_price_of_activated p new_price x hact hx] at h
    simp only [Except.ok.injEq] at h
    subst h
    refine ⟨_, rfl, fun _ => ⟨fun hb => ?_, fun hs => ?_⟩⟩
    · simp [hb, le_max_left]
    · simp [hs, min_le_left]

/-- One `update_price` step on a not-yet-armed position that stays
unarmed keeps an absent trailing stop price absent. -/
theorem update_price_none_of_not_activated (p : PositionState)
    (new_price : ℚ) (q : PositionState)
    (hact : p.is_trailing_stop_activated = false)
    (h : update_price p new_price = Except.ok q)
    (hq : q.is_trailing_stop_activated = false)
    (hnone : p.trailing_stop_price = none) :
    q.trailing_stop_price = none := by
  have hne := update_price_entry_ne_zero p new_price q hact h
  rw [update_price_of_not_activated p new_price hact hne] at h
  simp only [Except.ok.injEq] at h
  split_ifs at h <;> subst h <;> simp_all

/-- Arming persists across any successful sequence of updates. -/
theorem update_many_armed_persists (p : PositionState) (prices : List ℚ)
    (q : PositionState) (h : update_many p prices = Except.ok q)
    (hact : p.is_trailing_stop_activated = true) :
    q.is_trailing_stop_activated = true := by
  induction prices generalizing p with
  | nil =>
      simp only [update_many, Except.ok.injEq] at h
      subst h
      exact hact
  | cons a as ih =>
      obtain ⟨p₁, ha, hrest⟩ := update_many_cons p a as q h
      exact ih p₁ hrest
        ((update_price_preserves p a p₁ ha).2.2.2.2.2.2 hact)

/-- C8: across every successful sequence of `update_price` calls,
(1) starting from a well-formed unarmed position with no trailing price,
the trailing price stays `None` as long as the position is unarmed,
(2) a present trailing price is never unset, and
(3) once armed, the position stays armed and the trailing price moves
monotonically — non-decreasing for BUY, non-increasing for SELL. -/
theorem c8_trailing_stop_invariants (p : PositionState) (prices : List ℚ)
    (q : PositionState) (h : update_many p prices = Except.ok q) :
    (p.is_trailing_stop_activated = false → p.trailing_stop_price = none →
      q.is_trailing_stop_activated = false →
      q.trailing_stop_price = none) ∧
    (∀ x, p.trailing_stop_price = some x →
      ∃ y, q.trailing_stop_price = some y ∧
        (p.is_trailing_stop_activated = true →
          q.is_trailing_stop_activated = true ∧
          (p.trade_type = TradeType.BUY → x ≤ y) ∧
          (p.trade_type = TradeType.SELL → y ≤ x))) := by
  induction prices generalizing p with
  | nil =>
      simp only [update_many, Except.ok.injEq] at h
      subst h
      exact ⟨fun _ hn _ => hn, fun x hx =>
        ⟨x, hx, fun harm => ⟨harm, fun _ => le_refl x, fun _ => le_refl x⟩⟩⟩
  | cons a as ih =>
      obtain ⟨p₁, ha, hrest⟩ := update_many_cons p a as q h
      have pres := update_price_preserves p a p₁ ha
      refine ⟨fun hact hnone hq => ?_, fun x hx => ?_⟩
      · rcases hact1 : p₁.is_trailing_stop_activated with _ | _
        · exact (ih p₁ hrest).1 hact1
            (update_price_none_of_not_activated p a p₁ hact ha hact1 hnone)
            hq
        · exact absurd (update_many_armed_persists p₁ as q hrest hact1)
            (by simp [hq])
      · obtain ⟨y₁, hy₁, hmono₁⟩ :=
          update_price_trailing_mono p a p₁ x ha hx
        obtain ⟨y, hy, hrest2⟩ := (ih p₁ hrest).2 y₁ hy₁
        refine ⟨y, hy, fun harm => ?_⟩
        have harm₁ : p₁.is_trailing_stop_activated = true :=
          pres.2.2.2.2.2.2 harm
        obtain ⟨hqarm, hby, hsy⟩ := hrest2 harm₁
        have htt : p₁.trade_type = p.trade_type := pres.2.2.1
        refine ⟨hqarm, fun hb => ?_, fun hs => ?_⟩
        · exact le_trans ((hmono₁ harm).1 hb) (hby (htt.trans hb))
        · exact le_trans (hsy (htt.trans hs)) ((hmono₁ harm).2 hs)

/-- Witness for C8: an armed BUY position with trailing price 106 sees
closes 99 then 107; it stays armed and the trailing price ratchets from
106 up to 107, never unset. -/
theorem c8_trailing_stop_invariants_witness :
    pBoth.trailing_stop_price = some 106 ∧
    update_many pBoth [99, 107] = Except.ok pBoth107 ∧
    ∃ y, pBoth107.trailing_stop_price = some y ∧ 106 ≤ y := by
  have h1 : update_price pBoth 99 = Except.ok pBoth99 := by
    rw [update_price_of_activated pBoth 99 106 rfl rfl]
    norm_num [pBoth, pBoth99, max_def, min_def]
    all_goals ((try split_ifs) <;> simp_all)
  have h2 : update_price pBoth99 107 = Except.ok pBoth107 := by
    rw [update_price_of_activated pBoth99 107 106 rfl rfl]
    norm_num [pBoth, pBoth99, pBoth107, max_def, min_def]
    all_goals ((try split_ifs) <;> simp_all)
  have hm : update_many pBoth [99, 107] = Except.ok pBoth107 := by
    simp [update_many, h1, h2, Bind.bind, Except.bind]
  refine ⟨rfl, hm, ?_⟩
  obtain ⟨y, hy, hmono⟩ :=
    (c8_trailing_stop_invariants pBoth [99, 107] pBoth107 hm).2 106 rfl
  exact ⟨y, hy, (hmono rfl).2.1 rfl⟩

/-- C3 counterexample: in a one-bar run that triggers no exit, the
metrics of `analyze_backtest_results` report `exit_reason = "update"`
(the last appended event's kind), not an explicit `"end_of_data"`
marker. -/
theorem c3_exit_reason_counterexample :
    (match simulate_position [{ timestamp := 0, close := 100 }] 100 1
        TradeType.BUY (5 / 100) (1 / 2) (5 / 1000) with
     | Except.ok (_, es) =>
        Option.map BacktestMetrics.exit_reason (analyze_backtest_results es)
     | Except.error _ => none) = some "update" ∧
    "update" ≠ "end_of_data" := by
  have hsim : simulate_position [{ timestamp := 0, close := 100 }] 100 1
      TradeType.BUY (5 / 100) (1 / 2) (5 / 1000) =
      Except.ok (some pBuyFar,
        [{ timestamp := 0, type := "update", price := 100, pnl := 0,
           pnl_percentage := 0, trailing_stop_activated := some false,
           trailing_stop_price := some none }]) := by
    norm_num [simulate_position, simulate_loop, simulate_step, update_price,
      decDiv, should_take_profit, should_stop_loss, unrealized_pnl,
      unrealized_pnl_percentage, pBuyFar, Bind.bind, Except.bind, Pure.pure,
      Except.pure]
    all_goals ((try split_ifs) <;> simp_all)
  rw [hsim]
  refine ⟨?_, by decide⟩
  simp [analyze_backtest_results, max_drawdown_scan]

/-- C3 (amended): `analyze_backtest_results` derives `exit_reason` from
the last appended event's kind, with no `end_of_data` defaulting; in
particular a run in which every appended event has kind `update` (no bar
triggered an exit) reports `exit_reason = "update"`. -/
theorem c3_exit_reason_from_last_event (events : List BacktestEvent)
    (h : events ≠ []) :
    Option.map BacktestMetrics.exit_reason
        (analyze_backtest_results events) =
      some ((events.getLast h).type) ∧
    ((∀ e ∈ events, e.type = "update") →
      Option.map BacktestMetrics.exit_reason
          (analyze_backtest_results events) = some "update") := by
  have h1 : Option.map BacktestMetrics.exit_reason
      (analyze_backtest_results events) = some ((events.getLast h).type) := by
    rcases events with _ | ⟨e0, rest⟩
    · exact absurd rfl h
    · simp [analyze_backtest_results]
  refine ⟨h1, fun hall => ?_⟩
  rw [h1, hall ((events.getLast h)) (events.getLast_mem h)]

/-- Witness for C3 (amended) on a concrete two-event log ending in a
take-profit event. -/
theorem c3_exit_reason_witness :
    Option.map BacktestMetrics.exit_reason
        (analyze_backtest_results eventsEx) = some "take_profit" := by
  have h := (c3_exit_reason_from_last_event eventsEx (by simp [eventsEx])).1
  rw [h]
  simp [eventsEx]

/-- Indexing a mapped range list. -/
theorem getElem?_range_map {α : Type} (f : ℕ → α) (n i : ℕ) (hi : i < n) :
    ((List.range n).map f)[i]? = some (f i) := by
  simp [List.getElem?_map, List.getElem?_range, hi]

/-- Zipping two mapped range lists is mapping the pointwise combination. -/
theorem zipWith_range_map {α β γ : Type} (g : α → β → γ) (f₁ : ℕ → α)
    (f₂ : ℕ → β) (n : ℕ) :
    List.zipWith g ((List.range n).map f₁) ((List.range n).map f₂) =
      (List.range n).map (fun i => g (f₁ i) (f₂ i)) := by
  induction n with
  | zero => rfl
  | succ n ih =>
      rw [List.range_succ]
      simp only [List.map_append, List.map_cons, List.map_nil]
      rw [List.zipWith_append _ _ _ _ _ (by simp), ih]
      rfl

/-- The `i`-th RSI value of `calculate_rsi`, written pointwise. -/
theorem calculate_rsi_getElem (series : List ℚ) (period i : ℕ)
    (hi : i < series.length) :
    (calculate_rsi series period)[i]? = some
      (fsub (FloatQ.fin 100) (fdiv (FloatQ.fin 100) (fadd (FloatQ.fin 1)
        (fdiv (rollingMeanAt (rsi_gain series) period i)
              (rollingMeanAt (rsi_loss series) period i))))) := by
  have hg : (rsi_gain series).length = series.length := by
    simp [rsi_gain]
  have hl : (rsi_loss series).length = series.length := by
    simp [rsi_loss]
  unfold calculate_rsi rolling_mean_q
  dsimp only
  rw [hg, hl, zipWith_range_map, List.map_map]
  exact getElem?_range_map _ _ i hi

/-- C6 counterexample: over the flat series `[5,5,5]` with period 2, at
index 2 (which is `≥ period`) both the trailing average loss and the
trailing average gain are 0; `rs = 0/0` is `NaN` in float division, so
the computed RSI is `NaN`, not the claimed saturating 100. -/
theorem c6_rsi_zero_loss_counterexample :
    rollingMeanAt (rsi_loss [5, 5, 5]) 2 2 = FloatQ.fin 0 ∧
    rollingMeanAt (rsi_gain [5, 5, 5]) 2 2 = FloatQ.fin 0 ∧
    (calculate_rsi [5, 5, 5] 2)[2]? = some FloatQ.nan ∧
    FloatQ.nan ≠ FloatQ.fin 100 := by
  have hl : rollingMeanAt (rsi_loss [5, 5, 5]) 2 2 = FloatQ.fin 0 := by
    norm_num [rollingMeanAt, rsi_loss, List.range_succ]
  have hg : rollingMeanAt (rsi_gain [5, 5, 5]) 2 2 = FloatQ.fin 0 := by
    norm_num [rollingMeanAt, rsi_gain, List.range_succ]
  refine ⟨hl, hg, ?_, by simp⟩
  rw [calculate_rsi_getElem [5, 5, 5] 2 2 (by norm_num), hl, hg]
  simp [fdiv, fadd, fsub]

/-- C6 (amended): at any index where the trailing average loss computed
by `calculate_rsi` is zero, the RSI value is the saturating 100 when the
trailing average gain is positive, but it is `NaN` (not 100) when the
average gain is zero as well, because float `0/0` is `NaN`. -/
theorem c6_rsi_zero_avg_loss (series : List ℚ) (period i : ℕ) (g : ℚ)
    (hi : i < series.length)
    (hloss : (rolling_mean_q (rsi_loss series) period)[i]? =
      some (FloatQ.fin 0))
    (hgain : (rolling_mean_q (rsi_gain series) period)[i]? =
      some (FloatQ.fin g)) :
    (0 < g → (calculate_rsi series period)[i]? = some (FloatQ.fin 100)) ∧
    (g = 0 → (calculate_rsi series period)[i]? = some FloatQ.nan) := by
  have hllen : (rsi_loss series).length = series.length := by simp [rsi_loss]
  have hglen : (rsi_gain series).length = series.length := by simp [rsi_gain]
  have h2 := getElem?_range_map (rollingMeanAt (rsi_loss series) period)
    ((rsi_loss series).length) i (hllen ▸ hi)
  rw [rolling_mean_q, h2] at hloss
  have hloss' := Option.some.inj hloss
  have h3 := getElem?_range_map (rollingMeanAt (rsi_gain series) period)
    ((rsi_gain series).length) i (hglen ▸ hi)
  rw [rolling_mean_q, h3] at hgain
  have hgain' := Option.some.inj hgain
  rw [calculate_rsi_getElem series period i hi, hloss', hgain']
  constructor
  · intro hgpos
    simp [fdiv, fadd, fsub, hgpos.ne', hgpos]
  · intro h0
    subst h0
    simp [fdiv, fadd, fsub]

/-- Witness for C6 (amended): over `[1,2,4]` with period 2, at index 2
the average loss is 0 and the average gain is `3/2 > 0`; the RSI value
saturates to 100. -/
theorem c6_rsi_zero_avg_loss_witness :
    (calculate_rsi [1, 2, 4] 2)[2]? = some (FloatQ.fin 100) := by
  have h := c6_rsi_zero_avg_loss [1, 2, 4] 2 2 (3 / 2) (by norm_num)
    (by norm_num [rolling_mean_q, rollingMeanAt, rsi_loss, List.range_succ])
    (by norm_num [rolling_mean_q, rollingMeanAt, rsi_gain, List.range_succ])
  exact h.1 (by norm_num)

/-- `update_price` succeeds whenever the entry price is nonzero, and
preserves the entry price and amount. -/
theorem update_price_ok_of_entry_ne_zero (p : PositionState) (new : ℚ)
    (hne : p.entry_price ≠ 0) :
    ∃ q, update_price p new = Except.ok q ∧
      q.entry_price = p.entry_price ∧ q.amount = p.amount := by
  rcases hact : p.is_trailing_stop_activated with _ | _
  · rw [update_price_of_not_activated p new hact hne]
    refine ⟨_, rfl, ?_, ?_⟩ <;> split_ifs <;> rfl
  · rcases hts : p.trailing_stop_price with _ | ts
    · rw [update_price_of_activated_none p new hact hts]
      exact ⟨_, rfl, rfl, rfl⟩
    · rw [update_price_of_activated p new ts hact hts]
      exact ⟨_, rfl, rfl, rfl⟩

/-- `unrealized_pnl_percentage` succeeds whenever `entry_price * amount`
is nonzero. -/
theorem unrealized_pnl_percentage_ok (p : PositionState)
    (h : p.entry_price * p.amount ≠ 0) :
    ∃ v, unrealized_pnl_percentage p = Except.ok v := by
  refine ⟨unrealized_pnl p / (p.entry_price * p.amount) * 100, ?_⟩
  simp [unrealized_pnl_percentage, decDiv, h, Bind.bind, Except.bind,
    Pure.pure, Except.pure]

/-- The loop body succeeds whenever the entry price and amount are
nonzero, and preserves both. -/
theorem simulate_step_ok (p : PositionState) (c : Candle)
    (hne : p.entry_price ≠ 0) (ham : p.amount ≠ 0) :
    ∃ q e b, simulate_step p c = Except.ok (q, e, b) ∧
      q.entry_price = p.entry_price ∧ q.amount = p.amount := by
  obtain ⟨q, hq, hqe, hqa⟩ := update_price_ok_of_entry_ne_zero p c.close hne
  obtain ⟨v, hv⟩ := unrealized_pnl_percentage_ok q
    (by rw [hqe, hqa]; exact mul_ne_zero hne ham)
  rcases htp : should_take_profit q with _ | _
  · rcases hsl : should_stop_loss q with _ | _
    · exact ⟨q, _, false, simulate_step_eq_update p c q v hq htp hsl hv,
        hqe, hqa⟩
    · exact ⟨q, _, true, simulate_step_eq_trailing_stop p c q v hq htp hsl hv,
        hqe, hqa⟩
  · exact ⟨q, _, true, simulate_step_eq_take_profit p c q v hq htp hv,
      hqe, hqa⟩

/-- The candle loop succeeds whenever the entry price and amount are
nonzero. -/
theorem simulate_loop_ok (candles : List Candle) (p : PositionState)
    (hne : p.entry_price ≠ 0) (ham : p.amount ≠ 0) :
    ∃ r, simulate_loop p candles = Except.ok r := by
  induction candles generalizing p with
  | nil => exact ⟨(p, []), rfl⟩
  | cons c cs ih =>
      obtain ⟨q, e, b, hstep, hqe, hqa⟩ := simulate_step_ok p c hne ham
      rcases b with _ | _
      · obtain ⟨r, hr⟩ := ih q (by rw [hqe]; exact hne) (by rw [hqa]; exact ham)
        exact ⟨(r.1, e :: r.2), by
          simp [simulate_loop, hstep, hr, Bind.bind, Except.bind]⟩
      · exact ⟨(q, [e]), by
          simp [simulate_loop, hstep, Bind.bind, Except.bind]⟩

/-- `simulate_position` succeeds whenever the entry price and amount are
nonzero. -/
theorem simulate_position_ok (candles : List Candle) (entry amount : ℚ)
    (tt : TradeType) (tp tsa tst : ℚ) (hne : entry ≠ 0) (ham : amount ≠ 0) :
    ∃ r, simulate_position candles entry amount tt tp tsa tst =
      Except.ok r := by
  rcases candles with _ | ⟨c0, cs⟩
  · exact ⟨(none, []), rfl⟩
  · obtain ⟨r, hr⟩ := simulate_loop_ok (c0 :: cs)
      { trading_pair := c0.trading_pair.getD "UNKNOWN", trade_type := tt,
        entry_price := entry, amount := amount, current_price := entry,
        take_profit_price := entry * (1 + tp),
        trailing_stop_activation_price := tsa } hne ham
    exact ⟨(some r.1, r.2), by
      simp [simulate_position, hr, Bind.bind, Except.bind]⟩

/-- `simulate_position` raises `DivisionByZero` on any nonempty candle
sequence when the entry price is zero: the first `update_price` divides
the price change by the entry price. -/
theorem simulate_position_entry_zero (c0 : Candle) (cs : List Candle)
    (amount : ℚ) (tt : TradeType) (tp tsa tst : ℚ) :
    simulate_position (c0 :: cs) 0 amount tt tp tsa tst =
      Except.error "DivisionByZero" := by
  simp [simulate_position, simulate_loop, simulate_step, update_price,
    decDiv, Bind.bind, Except.bind]

/-- `mkRocketmanConfig` succeeds on positive parameters, returning the
record with those fields. -/
theorem mkRocketmanConfig_ok (cn tpair : String) (oa : ℚ) (lv : ℤ)
    (tp tsa tst : ℚ) (hoa : 0 < oa) (hlv : 0 < lv) (htp : 0 < tp)
    (htsa : 0 < tsa) (htst : 0 < tst) :
    mkRocketmanConfig cn tpair oa lv tp tsa tst = Except.ok
      { connector_name := cn, trading_pair := tpair, order_amount := oa,
        leverage := lv, take_profit_percentage := tp,
        trailing_stop_activation_price_delta := tsa,
        trailing_stop_trailing_delta := tst } := by
  simp [mkRocketmanConfig, not_le.mpr hoa, not_le.mpr hlv, not_le.mpr htp,
    not_le.mpr htsa, not_le.mpr htst]

/-- One sweep combination succeeds when its parameters are positive, the
base order amount is positive and the entry price is nonzero. -/
theorem sweep_combination_ok (candles : List Candle)
    (config : RocketmanConfig) (tt : TradeType) (entry tp tsa tst : ℚ)
    (hoa : 0 < config.order_amount) (htp : 0 < tp) (htsa : 0 < tsa)
    (htst : 0 < tst) (hne : entry ≠ 0) :
    ∃ r, sweep_combination candles config tt entry tp tsa tst =
      Except.ok r := by
  obtain ⟨r, hr⟩ := simulate_position_ok candles entry config.order_amount
    tt tp tsa tst hne (ne_of_gt hoa)
  refine ⟨{ metrics := analyze_backtest_results r.2,
            take_profit_percentage := tp,
            trailing_stop_activation_delta := tsa,
            trailing_stop_trailing_delta := tst }, ?_⟩
  simp [sweep_combination,
    mkRocketmanConfig_ok config.connector_name config.trading_pair
      config.order_amount 1 tp tsa tst hoa one_pos htp htsa htst,
    hr, Bind.bind, Except.bind, Pure.pure, Except.pure]

/-- One sweep combination with positive parameters raises
`DivisionByZero` when the entry price is zero and the candles are
nonempty. -/
theorem sweep_combination_entry_zero (c0 : Candle) (cs : List Candle)
    (config : RocketmanConfig) (tt : TradeType) (tp tsa tst : ℚ)
    (hoa : 0 < config.order_amount) (htp : 0 < tp) (htsa : 0 < tsa)
    (htst : 0 < tst) :
    sweep_combination (c0 :: cs) config tt 0 tp tsa tst =
      Except.error "DivisionByZero" := by
  simp [sweep_combination,
    mkRocketmanConfig_ok config.connector_name config.trading_pair
      config.order_amount 1 tp tsa tst hoa one_pos htp htsa htst,
    simulate_position_entry_zero, Bind.bind, Except.bind]

/-- The sweep loop succeeds elementwise, one result per combination. -/
theorem sweep_runs_ok_of_forall (candles : List Candle)
    (config : RocketmanConfig) (tt : TradeType) (entry : ℚ)
    (l : List (ℚ × ℚ × ℚ))
    (h : ∀ c ∈ l, ∃ r, sweep_combination candles config tt entry
      c.1 c.2.1 c.2.2 = Except.ok r) :
    ∃ rs, sweep_runs candles config tt entry l = Except.ok rs ∧
      rs.length = l.length := by
  induction l with
  | nil => exact ⟨[], rfl, rfl⟩
  | cons c rest ih =>
      obtain ⟨r, hr⟩ := h c (List.mem_cons_self c rest)
      obtain ⟨rs, hrs, hlen⟩ := ih (fun x hx => h x (List.mem_cons_of_mem c hx))
      exact ⟨r :: rs, by
        simp [sweep_runs, hr, hrs, Bind.bind, Except.bind], by simp [hlen]⟩

/-- The sweep loop propagates an error at the head combination, losing
everything. -/
theorem sweep_runs_cons_error (candles : List Candle)
    (config : RocketmanConfig) (tt : TradeType) (entry : ℚ)
    (c : ℚ × ℚ × ℚ) (rest : List (ℚ × ℚ × ℚ)) (msg : String)
    (h : sweep_combination candles config tt entry c.1 c.2.1 c.2.2 =
      Except.error msg) :
    sweep_runs candles config tt entry (c :: rest) = Except.error msg := by
  simp [sweep_runs, h, Bind.bind, Except.bind]

/-- Length of the inner (activation × trailing) product. -/
theorem sweep_inner_length (tp : ℚ) (tsar tstr : List ℚ) :
    (tsar.flatMap (fun tsa => tstr.map (fun tst => (tp, tsa, tst)))).length =
      tsar.length * tstr.length := by
  induction tsar with
  | nil => simp
  | cons tsa tsas ih =>
      simp only [List.flatMap_cons, List.length_append, List.length_map, ih,
        List.length_cons]
      ring

/-- Length of the full parameter grid. -/
theorem sweep_combos_length (tpr tsar tstr : List ℚ) :
    (sweep_combos tpr tsar tstr).length =
      tpr.length * (tsar.length * tstr.length) := by
  induction tpr with
  | nil => simp [sweep_combos]
  | cons tp tps ih =>
      simp only [sweep_combos, List.flatMap_cons, List.length_append,
        List.length_cons] at ih ⊢
      rw [sweep_inner_length, ih]
      ring

/-- Every combination in the grid draws its components from the three
ranges. -/
theorem sweep_combos_mem (tpr tsar tstr : List ℚ) (c : ℚ × ℚ × ℚ)
    (hc : c ∈ sweep_combos tpr tsar tstr) :
    c.1 ∈ tpr ∧ c.2.1 ∈ tsar ∧ c.2.2 ∈ tstr := by
  simp only [sweep_combos, List.mem_flatMap, List.mem_map] at hc
  obtain ⟨tp, htp, tsa, htsa, tst, htst, rfl⟩ := hc
  exact ⟨htp, htsa, htst⟩

/-- The grid over nonempty ranges starts with the head combination. -/
theorem sweep_combos_head (tp tsa tst : ℚ) (tps tsas tsts : List ℚ) :
    ∃ rest, sweep_combos (tp :: tps) (tsa :: tsas) (tst :: tsts) =
      (tp, tsa, tst) :: rest := by
  simp only [sweep_combos, List.flatMap_cons, List.map_cons,
    List.cons_append]
  exact ⟨_, rfl⟩

/-- C7 (amended): the parameter-sweep loop of
`run_parameter_optimization` has no per-combination error handling.
(1) If the entry price (the first candle's close) is zero, the very first
combination's simulation raises `DivisionByZero` and the whole sweep
aborts with that error — no failed-result record is produced and no
sibling combination appears in any returned result list.
(2) Only when every combination succeeds (positive parameters, positive
base order amount, nonzero entry price) does the call return a result
list, and then it holds one result per combination of the grid. -/
theorem c7_sweep_no_isolation (c0 : Candle) (cs : List Candle)
    (config : RocketmanConfig) (trade_type : TradeType)
    (tp₀ tsa₀ tst₀ : ℚ) (tps tsas tsts : List ℚ)
    (hoa : 0 < config.order_amount) :
    (c0.close = 0 → 0 < tp₀ → 0 < tsa₀ → 0 < tst₀ →
      run_parameter_optimization (c0 :: cs) config trade_type
          (tp₀ :: tps) (tsa₀ :: tsas) (tst₀ :: tsts) =
        Except.error "DivisionByZero") ∧
    (c0.close ≠ 0 →
      (∀ tp ∈ tp₀ :: tps, 0 < tp) →
      (∀ tsa ∈ tsa₀ :: tsas, 0 < tsa) →
      (∀ tst ∈ tst₀ :: tsts, 0 < tst) →
      ∃ rs, run_parameter_optimization (c0 :: cs) config trade_type
            (tp₀ :: tps) (tsa₀ :: tsas) (tst₀ :: tsts) = Except.ok rs ∧
        rs.length =
          (tp₀ :: tps).length * ((tsa₀ :: tsas).length *
            (tst₀ :: tsts).length)) := by
  constructor
  · intro h0 htp htsa htst
    obtain ⟨rest, hrest⟩ := sweep_combos_head tp₀ tsa₀ tst₀ tps tsas tsts
    have herr : sweep_combination (c0 :: cs) config trade_type c0.close
        tp₀ tsa₀ tst₀ = Except.error "DivisionByZero" := by
      rw [h0]
      exact sweep_combination_entry_zero c0 cs config trade_type tp₀ tsa₀
        tst₀ hoa htp htsa htst
    have hm := sweep_runs_cons_error (c0 :: cs) config trade_type c0.close
      (tp₀, tsa₀, tst₀) rest "DivisionByZero" herr
    simp [run_parameter_optimization, hrest, hm, Bind.bind, Except.bind]
  · intro h0 htp htsa htst
    obtain ⟨bs, hbs, hlen⟩ := sweep_runs_ok_of_forall (c0 :: cs) config
      trade_type c0.close
      (sweep_combos (tp₀ :: tps) (tsa₀ :: tsas) (tst₀ :: tsts))
      (fun c hc => by
        obtain ⟨h1, h2, h3⟩ := sweep_combos_mem _ _ _ c hc
        exact sweep_combination_ok (c0 :: cs) config trade_type c0.close
          c.1 c.2.1 c.2.2 hoa (htp c.1 h1) (htsa c.2.1 h2) (htst c.2.2 h3)
          h0)
    refine ⟨bs.mergeSort (fun a b => sweep_sort_key b ≤ sweep_sort_key a),
      ?_, ?_⟩
    · simp [run_parameter_optimization, hbs, Bind.bind, Except.bind,
        Pure.pure, Except.pure]
    · rw [List.length_mergeSort, hlen, sweep_combos_length]

/-- C7 counterexample: with candles whose first close is 0 and two
take-profit values in the grid, the first combination's simulation raises
`DivisionByZero` and `run_parameter_optimization` returns that error —
the failing combination is not recorded as a failed result, and the
sibling combination (take-profit 0.10) never runs and appears in no
returned result list. -/
theorem c7_sweep_isolation_counterexample :
    run_parameter_optimization [{ timestamp := 0, close := 0 }] cfgEx
        TradeType.BUY [1 / 20, 1 / 10] [1 / 100] [1 / 200] =
      Except.error "DivisionByZero" := by
  obtain ⟨rest, hrest⟩ := sweep_combos_head (1 / 20) (1 / 100) (1 / 200)
    [1 / 10] [] []
  have herr : sweep_combination [{ timestamp := 0, close := 0 }] cfgEx
      TradeType.BUY 0 (1 / 20) (1 / 100) (1 / 200) =
      Except.error "DivisionByZero" :=
    sweep_combination_entry_zero { timestamp := 0, close := 0 } [] cfgEx
      TradeType.BUY (1 / 20) (1 / 100) (1 / 200) (by norm_num [cfgEx])
      (by norm_num) (by norm_num) (by norm_num)
  have hm := sweep_runs_cons_error [{ timestamp := 0, close := 0 }] cfgEx
    TradeType.BUY 0 (1 / 20, 1 / 100, 1 / 200) rest "DivisionByZero" herr
  simp only [run_parameter_optimization]
  rw [hrest, hm]
  rfl

/-- Witness for C7 (amended), part 2: a fully-successful sweep over a
1×1×1 grid returns exactly one result. -/
theorem c7_sweep_no_isolation_witness :
    ∃ rs, run_parameter_optimization [{ timestamp := 0, close := 100 }]
        cfgEx TradeType.BUY [1 / 20] [1 / 100] [1 / 200] =
      Except.ok rs ∧ rs.length = 1 := by
  have h := (c7_sweep_no_isolation { timestamp := 0, close := 100 } []
    cfgEx TradeType.BUY (1 / 20) (1 / 100) (1 / 200) [] [] []
    (by norm_num [cfgEx])).2 (by norm_num)
    (by intro tp htp; simp at htp; subst htp; norm_num)
    (by intro tsa htsa; simp at htsa; subst htsa; norm_num)
    (by intro tst htst; simp at htst; subst htst; norm_num)
  obtain ⟨rs, h1, h2⟩ := h
  exact ⟨rs, h1, by simpa using h2⟩

/-- Sum of a contiguous slice as a `Finset.Ico` sum. -/
theorem sum_drop_take (xs : List ℝ) (a b : ℕ) (hab : a + b ≤ xs.length) :
    ((xs.drop a).take b).sum = ∑ j ∈ Finset.Ico a (a + b), xs.getD j 0 := by
  induction b with
  | zero => simp
  | succ b ih =>
      have hab' : a + b ≤ xs.length := by omega
      have hb : b < (xs.drop a).length := by
        rw [List.length_drop]
        omega
      rw [List.sum_take_succ _ b hb, ih hab', Nat.add_succ,
        Finset.sum_Ico_succ_top (by omega : a ≤ a + b)]
      congr 1
      rw [List.getElem_drop, List.getD_eq_getElem xs 0 (by omega)]

/-- Sum of a mapped contiguous slice as a `Finset.Ico` sum. -/
theorem sum_map_drop_take (xs : List ℝ) (f : ℝ → ℝ) (a b : ℕ)
    (hab : a + b ≤ xs.length) :
    (((xs.drop a).take b).map f).sum =
      ∑ j ∈ Finset.Ico a (a + b), f (xs.getD j 0) := by
  rw [List.map_take, List.map_drop,
    sum_drop_take (xs.map f) a b (by simpa using hab)]
  refine Finset.sum_congr rfl (fun j hj => ?_)
  simp only [Finset.mem_Ico] at hj
  have hjl : j < xs.length := by omega
  rw [List.getD_eq_getElem (xs.map f) 0 (by simpa using hjl),
    List.getD_eq_getElem xs 0 hjl, List.getElem_map]

/-- The pandas rolling window at a post-warm-up index is the trailing
`period`-element slice. -/
theorem rollingWindow_eq (xs : List ℝ) (period i : ℕ)
    (hp2 : period ≤ i + 1) :
    rollingWindow xs period i =
      some ((xs.drop (i + 1 - period)).take period) := by
  have he : i + 1 - (i + 1 - period) = period := by omega
  rw [rollingWindow, if_pos hp2, List.drop_take, he]

/-- Length of the trailing window. -/
theorem window_length (xs : List ℝ) (a b : ℕ) (hab : a + b ≤ xs.length) :
    ((xs.drop a).take b).length = b := by
  rw [List.length_take, List.length_drop]
  omega

/-- The mean of the trailing window is the spec's SMA. -/
theorem listMean_window (xs : List ℝ) (period i : ℕ) (hp2 : period ≤ i + 1)
    (hi : i < xs.length) :
    listMean ((xs.drop (i + 1 - period)).take period) = specSMA xs period i := by
  have hab : (i + 1 - period) + period ≤ xs.length := by omega
  have he : (i + 1 - period) + period = i + 1 := by omega
  rw [listMean, window_length _ _ _ hab, sum_drop_take _ _ _ hab, he, specSMA]

/-- The pandas `.std()` of the trailing window is the spec's SAMPLE
standard deviation (denominator `period - 1`). -/
theorem sampleStd_window (xs : List ℝ) (period i : ℕ) (hp2 : period ≤ i + 1)
    (hi : i < xs.length) :
    sampleStd ((xs.drop (i + 1 - period)).take period) =
      specSampleStd xs period i := by
  have hab : (i + 1 - period) + period ≤ xs.length := by omega
  have he : (i + 1 - period) + period = i + 1 := by omega
  rw [sampleStd, specSampleStd, window_length _ _ _ hab,
    listMean_window xs period i hp2 hi,
    sum_map_drop_take xs (fun x => (x - specSMA xs period i) ^ 2) _ _ hab,
    he]

/-- Indexing the middle band. -/
theorem bollinger_middle_getElem (xs : List ℝ) (period : ℕ) (k : ℝ)
    (i : ℕ) (hi : i < xs.length) :
    (calculate_bollinger_bands xs period k).2.1[i]? =
      some ((rollingWindow xs period i).map listMean) := by
  unfold calculate_bollinger_bands rolling_mean_r
  dsimp only
  exact getElem?_range_map _ _ i hi

/-- Indexing the upper band. -/
theorem bollinger_upper_getElem (xs : List ℝ) (period : ℕ) (k : ℝ)
    (i : ℕ) (hi : i < xs.length) :
    (calculate_bollinger_bands xs period k).1[i]? =
      some (((rollingWindow xs period i).map listMean).bind (fun mv =>
        ((rollingWindow xs period i).map sampleStd).map
          (fun sv => mv + sv * k))) := by
  unfold calculate_bollinger_bands rolling_mean_r rolling_std_r
  dsimp only
  rw [zipWith_range_map]
  exact getElem?_range_map _ _ i hi

/-- Indexing the lower band. -/
theorem bollinger_lower_getElem (xs : List ℝ) (period : ℕ) (k : ℝ)
    (i : ℕ) (hi : i < xs.length) :
    (calculate_bollinger_bands xs period k).2.2[i]? =
      some (((rollingWindow xs period i).map listMean).bind (fun mv =>
        ((rollingWindow xs period i).map sampleStd).map
          (fun sv => mv - sv * k))) := by
  unfold calculate_bollinger_bands rolling_mean_r rolling_std_r
  dsimp only
  rw [zipWith_range_map]
  exact getElem?_range_map _ _ i hi

/-- C5 (amended): at every index with a full trailing window the code's
Bollinger middle band is the simple moving average and the upper/lower
bands are `middle ± k` times the SAMPLE (ddof = 1) standard deviation of
the window — not the population standard deviation — and every
warm-up index (fewer than `period` closes available) is absent. -/
theorem c5_bollinger_sample_std (xs : List ℝ) (period : ℕ) (k : ℝ)
    (i : ℕ) (hp : 1 ≤ period) (hi : i < xs.length) :
    (period ≤ i + 1 →
      (calculate_bollinger_bands xs period k).2.1[i]? =
          some (some (specSMA xs period i)) ∧
      (calculate_bollinger_bands xs period k).1[i]? =
          some (some (specSMA xs period i + k * specSampleStd xs period i)) ∧
      (calculate_bollinger_bands xs period k).2.2[i]? =
          some (some (specSMA xs period i - k * specSampleStd xs period i))) ∧
    (i + 1 < period →
      (calculate_bollinger_bands xs period k).2.1[i]? = some none ∧
      (calculate_bollinger_bands xs period k).1[i]? = some none ∧
      (calculate_bollinger_bands xs period k).2.2[i]? = some none) := by
  constructor
  · intro hp2
    have hw := rollingWindow_eq xs period i hp2
    refine ⟨?_, ?_, ?_⟩
    · rw [bollinger_middle_getElem xs period k i hi, hw]
      simp [listMean_window xs period i hp2 hi]
    · rw [bollinger_upper_getElem xs period k i hi, hw]
      simp [listMean_window xs period i hp2 hi,
        sampleStd_window xs period i hp2 hi, mul_comm]
    · rw [bollinger_lower_getElem xs period k i hi, hw]
      simp [listMean_window xs period i hp2 hi,
        sampleStd_window xs period i hp2 hi, mul_comm]
  · intro hlt
    have hw : rollingWindow xs period i = none := by
      rw [rollingWindow, if_neg (by omega)]
    refine ⟨?_, ?_, ?_⟩
    · rw [bollinger_middle_getElem xs period k i hi, hw]
      rfl
    · rw [bollinger_upper_getElem xs period k i hi, hw]
      rfl
    · rw [bollinger_lower_getElem xs period k i hi, hw]
      rfl

/-- C5 counterexample: over the series `[0, 2]` with `period = 2` and
`k = 2`, the window `[0,2]` has mean 1, POPULATION standard deviation 1
(so the claimed upper band is `1 + 2*1 = 3`), but the code computes the
SAMPLE standard deviation `√2` and returns upper band `1 + √2*2 ≠ 3`. -/
theorem c5_population_std_counterexample :
    (calculate_bollinger_bands [0, 2] 2 2).1[1]? =
      some (some (1 + Real.sqrt 2 * 2)) ∧
    specSMA [0, 2] 2 1 + 2 * specPopStd [0, 2] 2 1 = 3 ∧
    (1 + Real.sqrt 2 * 2 : ℝ) ≠ 3 := by
  refine ⟨?_, ?_, ?_⟩
  · rw [bollinger_upper_getElem [0, 2] 2 2 1 (by norm_num),
      rollingWindow_eq [0, 2] 2 1 (by norm_num)]
    norm_num [listMean, sampleStd]
  · have hsma : specSMA [0, 2] 2 1 = 1 := by
      norm_num [specSMA, Finset.sum_range_succ]
    have hsum : (∑ j ∈ Finset.Ico (1 + 1 - 2) (1 + 1),
        (([0, 2] : List ℝ).getD j 0 - specSMA [0, 2] 2 1) ^ 2) = 2 := by
      norm_num [hsma, Finset.sum_range_succ]
    rw [specPopStd, hsum, hsma]
    norm_num [Real.sqrt_one]
  · intro h
    have h2 : Real.sqrt 2 = 1 := by linarith
    have h3 := Real.sq_sqrt (by norm_num : (0 : ℝ) ≤ 2)
    rw [h2] at h3
    norm_num at h3

/-- Witness for C5 (amended) at series `[0,2]`, period 2, `k = 2`,
index 1. -/
theorem c5_bollinger_sample_std_witness :
    (calculate_bollinger_bands [0, 2] 2 2).2.1[1]? =
      some (some (specSMA [0, 2] 2 1)) ∧
    (calculate_bollinger_bands [0, 2] 2 2).1[1]? =
      some (some (specSMA [0, 2] 2 1 + 2 * specSampleStd [0, 2] 2 1)) := by
  have h := (c5_bollinger_sample_std [0, 2] 2 2 1 (by norm_num)
    (by norm_num)).1 (by norm_num)
  exact ⟨h.1, h.2.1⟩
